import Mathlib

/-!
Shallow embedding of `src/app.py` (Fidelity trade-history CSV parser).

Modelling conventions:
* The input stream is a list of lines, each line already given as its list of
  CSV cells (`List String`); CSV quoting itself is not re-modelled.
* Python exceptions are explicit: `parse_trade_data` returns
  `Except PyErr (List Trade)`; `PyErr.stopIteration` models the uncaught
  `StopIteration` from `next(file)` on a short file, `PyErr.attributeError`
  the uncaught `AttributeError` raised when a `None`-filled cell (a non-blank
  row shorter than the header, `csv.DictReader`'s `restval`) is used where a
  string is expected.
* Python `float` values are modelled as exact rationals (`ℚ`); IEEE-754
  rounding, `inf`/`nan` literals and PEP-515 underscores are outside the
  model (no claim below depends on them).
* `datetime.date` is modelled as a `year`/`month`/`day` triple validated the
  way `datetime.strptime(s, "%m/%d/%Y").date()` validates it.
-/

namespace FidelityApp

/-- Model of `datetime.date`: the triple produced by `strptime(_, "%m/%d/%Y")`. -/
structure PDate where
  year : Nat
  month : Nat
  day : Nat
deriving DecidableEq

/-- Gregorian leap-year rule used by `datetime` for day-of-month validation. -/
def isLeap (y : Nat) : Bool :=
  y % 4 == 0 && (y % 100 != 0 || y % 400 == 0)

/-- Number of days in a month, as `datetime.date` validates the `day` field. -/
def daysInMonth (y m : Nat) : Nat :=
  if m = 2 then (if isLeap y then 29 else 28)
  else if m = 4 ∨ m = 6 ∨ m = 9 ∨ m = 11 then 30
  else 31

/-- Digit char to its value. -/
def digitVal (c : Char) : Nat := c.toNat - 48

/-- CPython `_strptime` month pattern `(1[0-2]|0[1-9]|[1-9])`, with the
alternation resolved in regex order.  (Committing to the first matching
alternative agrees with the backtracking regex here: when `1[0-2]` matches,
the one-digit fallback would need a `/` in a position known to hold `0`-`2`.) -/
def matchMonth : List Char → Option (Nat × List Char)
  | '1' :: c :: rest =>
      if '0' ≤ c ∧ c ≤ '2' then some (10 + digitVal c, rest)
      else some (1, c :: rest)
  | '0' :: c :: rest =>
      if '1' ≤ c ∧ c ≤ '9' then some (digitVal c, rest) else none
  | c :: rest =>
      if '1' ≤ c ∧ c ≤ '9' then some (digitVal c, rest) else none
  | [] => none

/-- CPython `_strptime` day pattern `(3[01]|[12][0-9]|0[1-9]|[1-9])`, with the
alternation resolved in regex order (same committing argument as for months). -/
def matchDay : List Char → Option (Nat × List Char)
  | '3' :: c :: rest =>
      if c = '0' ∨ c = '1' then some (30 + digitVal c, rest)
      else some (3, c :: rest)
  | '1' :: c :: rest =>
      if c.isDigit then some (10 + digitVal c, rest) else some (1, c :: rest)
  | '2' :: c :: rest =>
      if c.isDigit then some (20 + digitVal c, rest) else some (2, c :: rest)
  | '0' :: c :: rest =>
      if '1' ≤ c ∧ c ≤ '9' then some (digitVal c, rest) else none
  | c :: rest =>
      if '1' ≤ c ∧ c ≤ '9' then some (digitVal c, rest) else none
  | [] => none

/-- CPython `_strptime` year pattern for `%Y`: exactly four digits. -/
def matchYear4 : List Char → Option (Nat × List Char)
  | a :: b :: c :: d :: rest =>
      if a.isDigit && b.isDigit && c.isDigit && d.isDigit then
        some (1000 * digitVal a + 100 * digitVal b + 10 * digitVal c + digitVal d, rest)
      else none
  | _ => none

/-- Model of `datetime.strptime(s, "%m/%d/%Y").date()`: the whole string must
match `month '/' day '/' year`, and `datetime.date` then validates the year
(`1 ≤ y`, the four-digit pattern bounds it by `9999`) and the day against the
month length. -/
def pyStrptimeMDY (s : String) : Option PDate :=
  match matchMonth s.toList with
  | none => none
  | some (m, r1) =>
    match r1 with
    | '/' :: r2 =>
      match matchDay r2 with
      | none => none
      | some (d, r3) =>
        match r3 with
        | '/' :: r4 =>
          match matchYear4 r4 with
          | none => none
          | some (y, r5) =>
            if r5 = [] ∧ 1 ≤ y ∧ 1 ≤ d ∧ d ≤ daysInMonth y m then
              some ⟨y, m, d⟩
            else none
        | _ => none
    | _ => none

/-- ASCII whitespace stripped by Python `str.strip()` (the Unicode-only
whitespace code points do not occur in this data). -/
def isPyWs (c : Char) : Bool :=
  c == ' ' || c == '\t' || c == '\n' || c == '\r' || c == '\x0b' || c == '\x0c'

/-- Model of Python `s.strip()`: drop leading and trailing whitespace. -/
def pyStrip (s : String) : String :=
  ⟨((s.toList.dropWhile isPyWs).reverse.dropWhile isPyWs).reverse⟩

/-- Model of Python `s.upper()` on ASCII text. -/
def pyUpper (s : String) : String :=
  ⟨s.toList.map Char.toUpper⟩

/-- Model of Python `s.split("/")`: the segments between `/` separators
(`""` splits to `[""]`, adjacent separators give empty segments). -/
def pySplitSlash : List Char → List (List Char)
  | [] => [[]]
  | c :: rest =>
    let r := pySplitSlash rest
    if c = '/' then [] :: r
    else
      match r with
      | [] => [[c]]
      | seg :: segs => (c :: seg) :: segs

/-- Longest leading run of decimal digits, and the remainder. -/
def takeDigits : List Char → List Char × List Char
  | [] => ([], [])
  | c :: rest =>
    if c.isDigit then
      let (ds, r) := takeDigits rest
      (c :: ds, r)
    else ([], c :: rest)

/-- Value of a digit string. -/
def digitsToNat (l : List Char) : Nat :=
  l.foldl (fun a c => 10 * a + digitVal c) 0

/-- Exponent suffix `([eE][+-]?digits)?` of a Python float literal. -/
def matchExp : List Char → Option Int
  | [] => some 0
  | 'e' :: rest => matchExpDigits rest
  | 'E' :: rest => matchExpDigits rest
  | _ :: _ => none
where
  matchExpDigits : List Char → Option Int
  | l =>
    let (sgn, l') : Int × List Char :=
      match l with
      | '+' :: r => (1, r)
      | '-' :: r => (-1, r)
      | r => (1, r)
    let (ds, r) := takeDigits l'
    if ds = [] ∨ r ≠ [] then none else some (sgn * (digitsToNat ds : Int))

/-- The rational value `sgn * (ip + fp / 10 ^ fpLen) * 10 ^ e` of a decimal
literal with integer-part value `ip`, fractional-part value `fp` over
`fpLen` digits, and exponent `e`, built with `mkRat` so that it reduces in
the kernel. -/
def ratValue (sgn : Int) (ip fp fpLen : Nat) (e : Int) : ℚ :=
  let num : Int := sgn * ((ip * 10 ^ fpLen + fp : Nat) : Int)
  if 0 ≤ e then mkRat (num * ((10 ^ e.toNat : Nat) : Int)) (10 ^ fpLen)
  else mkRat num (10 ^ fpLen * 10 ^ (-e).toNat)

/-- Model of Python `float(s)` on finite decimal literals: surrounding
whitespace stripped, optional sign, `digits [. digits] | . digits`, optional
exponent.  The value is kept as an exact rational; `inf`/`nan` and digit
underscores are outside the model. -/
def pyFloat (s : String) : Option ℚ :=
  let l := (pyStrip s).toList
  let (sgn, l1) : Int × List Char :=
    match l with
    | '+' :: r => (1, r)
    | '-' :: r => (-1, r)
    | r => (1, r)
  let (ip, r1) := takeDigits l1
  match r1 with
  | '.' :: r2 =>
    let (fp, r3) := takeDigits r2
    if ip = [] ∧ fp = [] then none
    else
      match matchExp r3 with
      | none => none
      | some e => some (ratValue sgn (digitsToNat ip) (digitsToNat fp) fp.length e)
  | _ =>
    if ip = [] then none
    else
      match matchExp r1 with
      | none => none
      | some e => some (ratValue sgn (digitsToNat ip) 0 0 e)

/-- Is `pat` a leading segment of `t`? (helper for Python's `in` on strings). -/
def subAt : List Char → List Char → Bool
  | [], _ => true
  | _ :: _, [] => false
  | a :: ps, b :: ts => a == b && subAt ps ts

/-- Does `pat` occur contiguously in `t`? (helper for Python's `in`). -/
def hasSubList (pat : List Char) : List Char → Bool
  | [] => pat.isEmpty
  | b :: ts => subAt pat (b :: ts) || hasSubList pat ts

/-- Model of Python `sub in hay` on strings. -/
def pyIn (sub hay : String) : Bool :=
  hasSubList sub.toList hay.toList

/-- From `src/app.py`, `get_trade_action`: upper-case the action text, test the
keywords in the fixed order BOUGHT, SOLD, CONVERSION, and fall back to the
upper-cased raw string. -/
def get_trade_action (action : String) : String :=
  let a := pyUpper action
  if pyIn "BOUGHT" a then "Bought"
  else if pyIn "SOLD" a then "Sold"
  else if pyIn "CONVERSION" a then "Conversion"
  else a

/-- One parsed trade row, the dict built in `parse_trade_data` (the
`commission`/`fees`/`accrued_interest`/`cash_balance` entries are commented
out in this variant of the source). -/
structure Trade where
  run_date : PDate
  run_month : Nat
  run_year : Nat
  action : String
  symbol : String
  description : String
  type : String
  quantity : Option ℚ
  price : Option ℚ
  amount : Option ℚ
  settlement_date : Option PDate
deriving DecidableEq

/-- Index of the last occurrence of `key` in a list (the occurrence whose
assignment survives in `dict(zip(fieldnames, row))` followed by the
`restval` fill of `csv.DictReader`). -/
def lastIdxOf (key : String) : List String → Option Nat
  | [] => none
  | x :: xs =>
    match lastIdxOf key xs with
    | some i => some (i + 1)
    | none => if x = key then some 0 else none

/-- Model of `row[key]` on a `csv.DictReader` row: `none` is a `KeyError`
(`key` absent from the header), `some none` is the Python value `None`
(`restval` fill for a row shorter than the header), `some (some s)` a cell. -/
def pyLook (header row : List String) (key : String) : Option (Option String) :=
  (lastIdxOf key header).map (fun i => row.get? i)

/-- Row-level outcome of the `try` body: the explicit `break`, or a caught
`ValueError`/`KeyError` (both `stop`), or an uncaught `AttributeError` from
calling a string method on `None` (`crash`). -/
inductive RowErr where
  | stop
  | crash
deriving DecidableEq

/-- Outcome of processing one data row. -/
inductive ROut where
  | record (t : Trade)
  | stop
  | crash
deriving DecidableEq

/-- Sequencing of row-level steps (exception propagation). -/
def rbind {α β : Type} : Except RowErr α → (α → Except RowErr β) → Except RowErr β
  | Except.error e, _ => Except.error e
  | Except.ok a, f => f a

/-- `row[key]` followed by a string-method call: `KeyError` is caught
(`stop`), a `None` value makes the method call raise `AttributeError`
(`crash`). -/
def getF (look : String → Option (Option String)) (key : String) : Except RowErr String :=
  match look key with
  | none => Except.error RowErr.stop
  | some none => Except.error RowErr.crash
  | some (some s) => Except.ok s

/-- `ValueError` on a failed conversion, modelled as `stop` (it is caught). -/
def mOfOpt {α : Type} : Option α → Except RowErr α
  | some a => Except.ok a
  | none => Except.error RowErr.stop

/-- `abs(float(cell)) if cell.strip() else None` (quantity and amount). -/
def coerceNumAbs (cell : String) : Except RowErr (Option ℚ) :=
  if pyStrip cell = "" then Except.ok none
  else
    match pyFloat cell with
    | some x => Except.ok (some |x|)
    | none => Except.error RowErr.stop

/-- `float(cell) if cell.strip() else None` (price: sign preserved). -/
def coerceNumSigned (cell : String) : Except RowErr (Option ℚ) :=
  if pyStrip cell = "" then Except.ok none
  else
    match pyFloat cell with
    | some x => Except.ok (some x)
    | none => Except.error RowErr.stop

/-- `strptime(cell.strip(), "%m/%d/%Y").date() if cell.strip() else None`. -/
def coerceDateOpt (cell : String) : Except RowErr (Option PDate) :=
  if pyStrip cell = "" then Except.ok none
  else
    match pyStrptimeMDY (pyStrip cell) with
    | some d => Except.ok (some d)
    | none => Except.error RowErr.stop

/-- Body of the `try` block of `parse_trade_data` for one row, with field
accesses abstracted over the row-lookup function: the `Run Date` structural
test (lines 32-34 of `src/app.py`) and then the dict literal's entries in
their Python evaluation order. -/
def coerceExc (look : String → Option (Option String)) : Except RowErr Trade :=
  rbind (getF look "Run Date") fun rd =>
  if (pyStrip rd == "") || ((pySplitSlash (pyStrip rd).toList).length != 3) then Except.error RowErr.stop
  else
  rbind (mOfOpt (pyStrptimeMDY (pyStrip rd))) fun d =>
  rbind (getF look "Action") fun act =>
  rbind (getF look "Symbol") fun sym =>
  rbind (getF look "Description") fun desc =>
  rbind (getF look "Type") fun ty =>
  rbind (getF look "Quantity") fun qc =>
  rbind (coerceNumAbs qc) fun q =>
  rbind (getF look "Price ($)") fun pc =>
  rbind (coerceNumSigned pc) fun p =>
  rbind (getF look "Amount ($)") fun ac =>
  rbind (coerceNumAbs ac) fun am =>
  rbind (getF look "Settlement Date") fun sc =>
  rbind (coerceDateOpt sc) fun sd =>
  Except.ok
    { run_date := d
      run_month := d.month
      run_year := d.year
      action := get_trade_action act
      symbol := pyStrip sym
      description := pyStrip desc
      type := pyStrip ty
      quantity := q
      price := p
      amount := am
      settlement_date := sd }

/-- Outcome of one row: the `try`/`except (ValueError, KeyError)` around the
row body, with the explicit `break` folded into `stop`. -/
def coerceRowL (look : String → Option (Option String)) : ROut :=
  match coerceExc look with
  | Except.ok t => ROut.record t
  | Except.error RowErr.stop => ROut.stop
  | Except.error RowErr.crash => ROut.crash

/-- Outcome of one data row against a header. -/
def coerceRow (header row : List String) : ROut :=
  coerceRowL (pyLook header row)

/-- Python-level errors that can escape `parse_trade_data`. -/
inductive PyErr where
  | stopIteration
  | attributeError
deriving DecidableEq

/-- The `for row in csv_reader` loop: `csv.DictReader` silently skips empty
rows (`row == []`); a `stop` outcome is the `break`/caught-exception path and
returns what was collected; a `crash` outcome propagates. -/
def parseRows (header : List String) : List (List String) → Except PyErr (List Trade)
  | [] => Except.ok []
  | r :: rs =>
    if r = [] then parseRows header rs
    else
      match coerceRow header r with
      | ROut.record t => Except.map (fun l => t :: l) (parseRows header rs)
      | ROut.stop => Except.ok []
      | ROut.crash => Except.error PyErr.attributeError

/-- From `src/app.py`, `parse_trade_data`: two unconditional `next(file)`
calls (uncaught `StopIteration` when the file has fewer than 2 lines), then
`csv.DictReader` takes the next line as the header and the loop consumes the
remaining rows. -/
def parse_trade_data : List (List String) → Except PyErr (List Trade)
  | [] => Except.error PyErr.stopIteration
  | [_] => Except.error PyErr.stopIteration
  | _ :: _ :: rest =>
    match rest with
    | [] => Except.ok []
    | header :: dataRows => parseRows header dataRows

/-- The record a row contributes, if any. -/
def recordOf (header row : List String) : Option Trade :=
  match coerceRow header row with
  | ROut.record t => some t
  | _ => none

/-- Records contributed by a list of rows. -/
def collectRecords (header : List String) (rows : List (List String)) : List Trade :=
  rows.filterMap (recordOf header)

/-- Does the row trigger the explicit structural `break` of lines 32-34:
its `Run Date` cell exists and, trimmed, is empty or does not split on `/`
into exactly 3 parts? -/
def runDateBad (header row : List String) : Bool :=
  match pyLook header row "Run Date" with
  | some (some s) => (pyStrip s == "") || ((pySplitSlash (pyStrip s).toList).length != 3)
  | _ => false

/-- Is the outcome a record? -/
def isRecordOut : ROut → Bool
  | ROut.record _ => true
  | _ => false

/-- Summary dict of `get_trade_summary`. -/
structure TradeSummary where
  total_trades : Nat
  total_buy_trades : Nat
  total_sell_trades : Nat
  unique_symbols : Nat
deriving DecidableEq

/-- From `src/app.py`, `get_trade_summary`. -/
def get_trade_summary (trades : List Trade) : TradeSummary :=
  { total_trades := trades.length
    total_buy_trades := (trades.filter fun t => pyIn "BOUGHT" (pyUpper t.action)).length
    total_sell_trades := (trades.filter fun t => pyIn "SOLD" (pyUpper t.action)).length
    unique_symbols := (trades.map fun t => t.symbol).dedup.length }

/-- A cell of the output CSV, kept structural: `csv.DictWriter` writes `None`
as an empty cell; the decimal rendering of numbers by `str` is not
re-modelled (no claim depends on it). -/
inductive OutCell where
  | text (s : String)
  | natNum (n : Nat)
  | num (q : ℚ)
  | empty
deriving DecidableEq

/-- `date.strftime("%m/%d/%Y")`: zero-padded month and day, 4-digit year. -/
def formatMDY (d : PDate) : String :=
  (if d.month < 10 then "0" else "") ++ toString d.month ++ "/"
    ++ (if d.day < 10 then "0" else "") ++ toString d.day ++ "/"
    ++ (if d.year < 1000 then (if d.year < 100 then (if d.year < 10 then "000" else "00") else "0") else "")
    ++ toString d.year

/-- An optional number as an output cell. -/
def optNumCell : Option ℚ → OutCell
  | some q => OutCell.num q
  | none => OutCell.empty

/-- Field names of the output CSV: `list(trades[0].keys())`, i.e. the dict
insertion order of `parse_trade_data`'s row dict. -/
def fieldnamesList : List String :=
  ["run_date", "run_month", "run_year", "action", "symbol", "description",
   "type", "quantity", "price", "amount", "settlement_date"]

/-- One output row: the record's fields in `fieldnamesList` order, dates
rendered with `strftime("%m/%d/%Y")` (a date object is always truthy, a
`None` settlement date is left as an empty cell). -/
def trade_to_row (t : Trade) : List OutCell :=
  [OutCell.text (formatMDY t.run_date),
   OutCell.natNum t.run_month,
   OutCell.natNum t.run_year,
   OutCell.text t.action,
   OutCell.text t.symbol,
   OutCell.text t.description,
   OutCell.text t.type,
   optNumCell t.quantity,
   optNumCell t.price,
   optNumCell t.amount,
   match t.settlement_date with
   | some d => OutCell.text (formatMDY d)
   | none => OutCell.empty]

/-- Observable behaviour of `write_trades_to_csv`: the rows written to the
output file (`none` when no write is performed), the message printed to
standard output, and the Python return value (the function is annotated
`-> None` and returns nothing, modelled as `Option Nat` so that "returns a
count" is expressible). -/
structure WriteResult where
  written : Option (List (List OutCell))
  message : String
  returned : Option Nat
deriving DecidableEq

/-- From `src/app.py`, `write_trades_to_csv`: on an empty list it prints a
notice and returns without writing; otherwise it writes the header row and
one row per trade and prints a success message naming the count.  (The
`IOError` branch concerns the host filesystem and is outside the model.) -/
def write_trades_to_csv (trades : List Trade) (output_file : String) : WriteResult :=
  if trades = [] then
    { written := none
      message := "No trades to write to CSV file."
      returned := none }
  else
    { written := some ((fieldnamesList.map OutCell.text) :: trades.map trade_to_row)
      message := "Successfully wrote " ++ toString trades.length ++ " trades to " ++ output_file
      returned := none }

/-- Decidable equality of parse results, for evaluating concrete runs. -/
instance : DecidableEq (Except PyErr (List Trade)) := fun a b =>
  match a, b with
  | Except.ok x, Except.ok y =>
    if h : x = y then isTrue (by rw [h]) else isFalse (fun hh => h (Except.ok.inj hh))
  | Except.error x, Except.error y =>
    if h : x = y then isTrue (by rw [h]) else isFalse (fun hh => h (Except.error.inj hh))
  | Except.ok _, Except.error _ => isFalse (fun hh => Except.noConfusion hh)
  | Except.error _, Except.ok _ => isFalse (fun hh => Except.noConfusion hh)

/-- The header row of the sample Fidelity export (this variant's 9 columns). -/
def hdr9 : List String :=
  ["Run Date", "Action", "Symbol", "Description", "Type", "Quantity",
   "Price ($)", "Amount ($)", "Settlement Date"]

/-- A well-formed trade row. -/
def rowBought : List String :=
  ["01/15/2024", "YOU BOUGHT SHARES", "AAPL", "APPLE INC", "Cash",
   "10", "150.5", "-1505.25", ""]

/-- The record produced from `rowBought`. -/
def tradeBought : Trade :=
  { run_date := ⟨2024, 1, 15⟩, run_month := 1, run_year := 2024
    action := "Bought", symbol := "AAPL", description := "APPLE INC"
    type := "Cash", quantity := some 10, price := some (mkRat 301 2)
    amount := some (mkRat 6021 4), settlement_date := none }

/-- A disclaimer line: no slash-delimited date in its first cell. -/
def rowDisclaimer : List String :=
  ["The data and information in this report is for informational purposes only"]

/-- A row whose `Run Date` has three slash-separated parts but is not a valid
date (month 13). -/
def rowBadDate : List String :=
  ["13/40/2024", "YOU SOLD SHARES", "MSFT", "MICROSOFT CORP", "Cash",
   "1", "2", "3", ""]

/-- A truncated row: a valid `Run Date` but no further cells, so every other
column is filled with Python `None` by `csv.DictReader`. -/
def rowShort : List String := ["01/02/2024"]

/-- A trade row with negative quantity, price and a positive amount. -/
def rowNegQ : List String :=
  ["01/15/2024", "YOU BOUGHT", "AAPL", "X", "Cash", "-5", "-3", "10", ""]

/-- The record produced from `rowNegQ`: quantity made absolute, price signed. -/
def tradeNegQ : Trade :=
  { run_date := ⟨2024, 1, 15⟩, run_month := 1, run_year := 2024
    action := "Bought", symbol := "AAPL", description := "X"
    type := "Cash", quantity := some 5, price := some (-3)
    amount := some 10, settlement_date := none }

/-- A trade row with a blank quantity cell. -/
def rowBlankQ : List String :=
  ["01/15/2024", "YOU BOUGHT", "AAPL", "X", "Cash", "", "-3", "10", ""]

/-- The record produced from `rowBlankQ`: the blank cell becomes `none`. -/
def tradeBlankQ : Trade :=
  { run_date := ⟨2024, 1, 15⟩, run_month := 1, run_year := 2024
    action := "Bought", symbol := "AAPL", description := "X"
    type := "Cash", quantity := none, price := some (-3)
    amount := some 10, settlement_date := none }

/-- The header of `hdr9` as a function on `Fin 9` (for permutation claims). -/
def fW : Fin 9 → String := fun i => hdr9.getD i.val ""

/-- The cells of `rowBought` as a function on `Fin 9`. -/
def gW : Fin 9 → String := fun i => rowBought.getD i.val ""

/-- A column permutation: swap the Symbol and Quantity columns. -/
def permW : Equiv.Perm (Fin 9) := Equiv.swap 2 5

/-- A header with a duplicated column name (`Quantity` twice). -/
def hdrDup : List String :=
  ["Run Date", "Action", "Symbol", "Description", "Type", "Quantity",
   "Quantity", "Price ($)", "Amount ($)", "Settlement Date"]

/-- A data row for `hdrDup` with different cells under the two `Quantity`
columns. -/
def rowDup : List String :=
  ["01/15/2024", "YOU BOUGHT", "AAPL", "X", "Cash", "1", "2", "3", "4", ""]

/-- `hdrDup` as a function on `Fin 10`. -/
def fDup : Fin 10 → String := fun i => hdrDup.getD i.val ""

/-- `rowDup` as a function on `Fin 10`. -/
def gDup : Fin 10 → String := fun i => rowDup.getD i.val ""

/-- The column permutation swapping the two `Quantity` columns. -/
def permDup : Equiv.Perm (Fin 10) := Equiv.swap 5 6

/-- Sequencing inversion: a successful `rbind` comes from a successful first
step. -/
theorem rbind_ok {α β : Type} {e : Except RowErr α} {f : α → Except RowErr β} {b : β}
    (h : rbind e f = Except.ok b) : ∃ a, e = Except.ok a ∧ f a = Except.ok b := by
  cases e with
  | ok a => exact ⟨a, rfl, h⟩
  | error er => simp [rbind] at h

/-- A successful field access means the header has the column and the row has
the cell. -/
theorem getF_ok {look : String → Option (Option String)} {key s : String}
    (h : getF look key = Except.ok s) : look key = some (some s) := by
  unfold getF at h
  rcases e : look key with _ | v
  · rw [e] at h; simp at h
  · rcases v with _ | s'
    · rw [e] at h; simp at h
    · rw [e] at h
      simp only [Except.ok.injEq] at h
      subst h
      rfl

/-- A successful conversion means the option carried a value. -/
theorem mOfOpt_ok {α : Type} {o : Option α} {a : α}
    (h : mOfOpt o = Except.ok a) : o = some a := by
  cases o with
  | none => simp [mOfOpt] at h
  | some x => simp only [mOfOpt, Except.ok.injEq] at h; rw [h]

/-- Unfolding a successful `coerceNumAbs`. -/
theorem coerceNumAbs_ok {c : String} {v : Option ℚ}
    (h : coerceNumAbs c = Except.ok v) :
    (pyStrip c = "" → v = none) ∧
    (pyStrip c ≠ "" → ∃ x, pyFloat c = some x ∧ v = some |x|) := by
  unfold coerceNumAbs at h
  by_cases hc : pyStrip c = ""
  · rw [if_pos hc] at h
    simp only [Except.ok.injEq] at h
    exact ⟨fun _ => h.symm, fun hne => absurd hc hne⟩
  · rw [if_neg hc] at h
    rcases e : pyFloat c with _ | x
    · rw [e] at h; simp at h
    · rw [e] at h
      simp only [Except.ok.injEq] at h
      exact ⟨fun hh => absurd hh hc, fun _ => ⟨x, rfl, h.symm⟩⟩

/-- Unfolding a successful `coerceNumSigned`. -/
theorem coerceNumSigned_ok {c : String} {v : Option ℚ}
    (h : coerceNumSigned c = Except.ok v) :
    (pyStrip c = "" → v = none) ∧
    (pyStrip c ≠ "" → ∃ x, pyFloat c = some x ∧ v = some x) := by
  unfold coerceNumSigned at h
  by_cases hc : pyStrip c = ""
  · rw [if_pos hc] at h
    simp only [Except.ok.injEq] at h
    exact ⟨fun _ => h.symm, fun hne => absurd hc hne⟩
  · rw [if_neg hc] at h
    rcases e : pyFloat c with _ | x
    · rw [e] at h; simp at h
    · rw [e] at h
      simp only [Except.ok.injEq] at h
      exact ⟨fun hh => absurd hh hc, fun _ => ⟨x, rfl, h.symm⟩⟩

/-- Full inversion of a successful row coercion: every field access found a
string cell, every conversion succeeded, and the record's fields are exactly
the coerced values. -/
theorem coerceExc_ok_inv {look : String → Option (Option String)} {t : Trade}
    (h : coerceExc look = Except.ok t) :
    ∃ rd d act sym desc ty qc pc ac sc,
      look "Run Date" = some (some rd) ∧
      pyStrptimeMDY (pyStrip rd) = some d ∧
      look "Action" = some (some act) ∧
      look "Symbol" = some (some sym) ∧
      look "Description" = some (some desc) ∧
      look "Type" = some (some ty) ∧
      look "Quantity" = some (some qc) ∧
      coerceNumAbs qc = Except.ok t.quantity ∧
      look "Price ($)" = some (some pc) ∧
      coerceNumSigned pc = Except.ok t.price ∧
      look "Amount ($)" = some (some ac) ∧
      coerceNumAbs ac = Except.ok t.amount ∧
      look "Settlement Date" = some (some sc) ∧
      coerceDateOpt sc = Except.ok t.settlement_date ∧
      t.run_date = d ∧ t.run_month = d.month ∧ t.run_year = d.year ∧
      t.action = get_trade_action act ∧ t.symbol = pyStrip sym ∧
      t.description = pyStrip desc ∧ t.type = pyStrip ty := by
  unfold coerceExc at h
  obtain ⟨rd, hrd, h⟩ := rbind_ok h
  by_cases hc : (pyStrip rd == "") || ((pySplitSlash (pyStrip rd).toList).length != 3)
  · rw [if_pos hc] at h; simp at h
  · rw [if_neg hc] at h
    obtain ⟨d, hd, h⟩ := rbind_ok h
    obtain ⟨act, hact, h⟩ := rbind_ok h
    obtain ⟨sym, hsym, h⟩ := rbind_ok h
    obtain ⟨desc, hdesc, h⟩ := rbind_ok h
    obtain ⟨ty, hty, h⟩ := rbind_ok h
    obtain ⟨qc, hqc, h⟩ := rbind_ok h
    obtain ⟨q, hq, h⟩ := rbind_ok h
    obtain ⟨pc, hpc, h⟩ := rbind_ok h
    obtain ⟨p, hp, h⟩ := rbind_ok h
    obtain ⟨ac, hac, h⟩ := rbind_ok h
    obtain ⟨am, ham, h⟩ := rbind_ok h
    obtain ⟨sc, hsc, h⟩ := rbind_ok h
    obtain ⟨sd, hsd, h⟩ := rbind_ok h
    simp only [Except.ok.injEq] at h
    subst h
    exact ⟨rd, d, act, sym, desc, ty, qc, pc, ac, sc,
      getF_ok hrd, mOfOpt_ok hd, getF_ok hact, getF_ok hsym, getF_ok hdesc,
      getF_ok hty, getF_ok hqc, hq, getF_ok hpc, hp, getF_ok hac, ham,
      getF_ok hsc, hsd, rfl, rfl, rfl, rfl, rfl, rfl, rfl⟩

/-- A row that coerces to a record makes the row body succeed. -/
theorem coerceRow_record {header row : List String} {t : Trade}
    (h : coerceRow header row = ROut.record t) :
    coerceExc (pyLook header row) = Except.ok t := by
  unfold coerceRow coerceRowL at h
  cases e : coerceExc (pyLook header row) with
  | ok t' =>
    rw [e] at h
    have h' : ROut.record t' = ROut.record t := h
    obtain rfl : t' = t := ROut.record.inj h'
    rfl
  | error er =>
    cases er <;> rw [e] at h <;> exact absurd h (by simp)

/-- The empty row never coerces to a record (its `Run Date` access yields a
`KeyError` or a Python `None`). -/
theorem coerceRow_nil (header : List String) :
    coerceRow header [] = ROut.stop ∨ coerceRow header [] = ROut.crash := by
  rcases e : lastIdxOf "Run Date" header with _ | i
  · exact Or.inl (by simp [coerceRow, coerceRowL, coerceExc, getF, pyLook, e, rbind])
  · exact Or.inr (by simp [coerceRow, coerceRowL, coerceExc, getF, pyLook, e, rbind, List.get?])

/-- The empty row contributes no record. -/
theorem recordOf_nil (header : List String) : recordOf header [] = none := by
  unfold recordOf
  rcases coerceRow_nil header with h | h <;> rw [h]

/-- A row failing the `Run Date` structural test is non-empty and makes the
loop take the explicit `break`. -/
theorem coerceRow_stop_of_runDateBad {header row : List String}
    (h : runDateBad header row = true) :
    coerceRow header row = ROut.stop ∧ row ≠ [] := by
  unfold runDateBad at h
  rcases e : pyLook header row "Run Date" with _ | v
  · rw [e] at h; simp at h
  · rcases v with _ | s
    · rw [e] at h; simp at h
    · rw [e] at h
      have hprop : pyStrip s = "" ∨ ¬(pySplitSlash (pyStrip s).data).length = 3 := by
        simpa [String.toList] using h
      constructor
      · simp [coerceRow, coerceRowL, coerceExc, getF, e, rbind, hprop]
      · intro hrow
        subst hrow
        rcases l : lastIdxOf "Run Date" header with _ | i <;>
          simp [pyLook, l, List.get?] at e

/-- Behaviour of the row loop on a good prefix followed by a terminating row:
the loop returns exactly the records of the prefix, whatever follows. -/
theorem parseRows_append_stop {header bad : List String} {good rest : List (List String)}
    (hgood : ∀ r ∈ good, r = [] ∨ isRecordOut (coerceRow header r) = true)
    (hbadne : bad ≠ []) (hstop : coerceRow header bad = ROut.stop) :
    parseRows header (good ++ bad :: rest) = Except.ok (collectRecords header good) := by
  induction good with
  | nil =>
    show parseRows header (bad :: rest) = Except.ok (collectRecords header [])
    rw [parseRows, if_neg hbadne, hstop, collectRecords]
    rfl
  | cons r gs ih =>
    have hgs : ∀ x ∈ gs, x = [] ∨ isRecordOut (coerceRow header x) = true :=
      fun x hx => hgood x (List.mem_cons_of_mem r hx)
    rcases hgood r (List.mem_cons_self r gs) with hr | hr
    · subst hr
      show parseRows header ([] :: (gs ++ bad :: rest)) = _
      rw [parseRows, if_pos rfl, ih hgs]
      simp [collectRecords, recordOf_nil]
    · rcases e : coerceRow header r with t | _ | _
      · have hrne : r ≠ [] := by
          intro h0
          subst h0
          rcases coerceRow_nil header with h' | h' <;> rw [h'] at e <;> cases e
        show parseRows header (r :: (gs ++ bad :: rest)) = _
        rw [parseRows, if_neg hrne, e, ih hgs]
        simp [collectRecords, recordOf, e, Except.map]
      · rw [e] at hr; simp [isRecordOut] at hr
      · rw [e] at hr; simp [isRecordOut] at hr

/-- The last index found by `lastIdxOf` does hold the key. -/
theorem lastIdxOf_get? {key : String} :
    ∀ {l : List String} {i : Nat}, lastIdxOf key l = some i → l.get? i = some key := by
  intro l
  induction l with
  | nil => intro i h; simp [lastIdxOf] at h
  | cons x xs ih =>
    intro i h
    unfold lastIdxOf at h
    rcases e : lastIdxOf key xs with _ | j
    · rw [e] at h
      by_cases hx : x = key
      · rw [if_pos hx] at h
        simp only [Option.some.injEq] at h
        subst h
        simp [List.get?, hx]
      · rw [if_neg hx] at h; cases h
    · rw [e] at h
      simp only [Option.some.injEq] at h
      subst h
      simpa [List.get?] using ih e

/-- When the key occurs at exactly one position, `lastIdxOf` finds it. -/
theorem lastIdxOf_unique {key : String} :
    ∀ {l : List String} {i : Nat}, l.get? i = some key →
      (∀ j, l.get? j = some key → j = i) → lastIdxOf key l = some i := by
  intro l
  induction l with
  | nil => intro i h _; simp [List.get?] at h
  | cons x xs ih =>
    intro i hget huniq
    cases i with
    | zero =>
      simp only [List.get?, Option.some.injEq] at hget
      have hnone : lastIdxOf key xs = none := by
        rcases e : lastIdxOf key xs with _ | j
        · rfl
        · have : (x :: xs).get? (j + 1) = some key := by
            simpa [List.get?] using lastIdxOf_get? e
          cases huniq (j + 1) this
      unfold lastIdxOf
      rw [hnone, if_pos hget]
    | succ k =>
      simp only [List.get?] at hget
      have huniq' : ∀ j, xs.get? j = some key → j = k := by
        intro j hj
        have : (x :: xs).get? (j + 1) = some key := by simpa [List.get?] using hj
        have h1 := huniq (j + 1) this
        omega
      unfold lastIdxOf
      rw [ih hget huniq']

/-- A key absent from the header is never found. -/
theorem lastIdxOf_eq_none_of_not_mem {key : String} :
    ∀ {l : List String}, key ∉ l → lastIdxOf key l = none := by
  intro l
  induction l with
  | nil => intro _; rfl
  | cons x xs ih =>
    intro h
    have hx : x ≠ key := fun hh => h (by rw [hh]; exact List.mem_cons_self _ _)
    have hxs : key ∉ xs := fun hh => h (List.mem_cons_of_mem _ hh)
    unfold lastIdxOf
    rw [ih hxs, if_neg hx]

/-- The unique occurrence of `f i0` in `List.ofFn f`, for injective `f`. -/
theorem lastIdxOf_ofFn_inj {n : Nat} {f : Fin n → String}
    (hf : Function.Injective f) (i0 : Fin n) :
    lastIdxOf (f i0) (List.ofFn f) = some i0.val := by
  apply lastIdxOf_unique
  · rw [List.get?_ofFn]
    unfold List.ofFnNthVal
    rw [dif_pos i0.isLt]
  · intro j hj
    rw [List.get?_ofFn] at hj
    unfold List.ofFnNthVal at hj
    split at hj
    · simp only [Option.some.injEq] at hj
      exact congrArg Fin.val (hf hj)
    · cases hj

/-- Looking up any key in a column-permuted header/row pair gives the same
result as in the original pair, provided the column names are distinct. -/
theorem pyLook_perm {n : Nat} (σ : Equiv.Perm (Fin n)) (f g : Fin n → String)
    (hf : Function.Injective f) (key : String) :
    pyLook (List.ofFn (f ∘ σ)) (List.ofFn (g ∘ σ)) key
      = pyLook (List.ofFn f) (List.ofFn g) key := by
  by_cases hk : ∃ i, f i = key
  · obtain ⟨i0, hi0⟩ := hk
    have hfσ : Function.Injective (f ∘ σ) := hf.comp σ.injective
    have h1 : lastIdxOf key (List.ofFn f) = some i0.val := by
      rw [← hi0]; exact lastIdxOf_ofFn_inj hf i0
    have h2 : lastIdxOf key (List.ofFn (f ∘ σ)) = some (σ.symm i0).val := by
      have : (f ∘ σ) (σ.symm i0) = key := by
        simp only [Function.comp_apply, Equiv.apply_symm_apply]; exact hi0
      rw [← this]
      exact lastIdxOf_ofFn_inj hfσ (σ.symm i0)
    rw [pyLook, pyLook, h1, h2]
    show some ((List.ofFn (g ∘ σ)).get? (σ.symm i0).val)
      = some ((List.ofFn g).get? i0.val)
    apply congrArg
    rw [List.get?_ofFn, List.get?_ofFn]
    unfold List.ofFnNthVal
    rw [dif_pos (σ.symm i0).isLt, dif_pos i0.isLt]
    simp [Fin.eta, Equiv.apply_symm_apply]
  · push_neg at hk
    have hm : key ∉ List.ofFn f := by
      rw [List.mem_ofFn]
      rintro ⟨i, hi⟩
      exact hk i hi
    have hm2 : key ∉ List.ofFn (f ∘ σ) := by
      rw [List.mem_ofFn]
      rintro ⟨i, hi⟩
      exact hk (σ i) hi
    rw [pyLook, pyLook, lastIdxOf_eq_none_of_not_mem hm,
      lastIdxOf_eq_none_of_not_mem hm2]
    rfl

/-- Row coercion is invariant under a column permutation of header and row,
for a header with distinct column names. -/
theorem coerceRow_perm {n : Nat} (σ : Equiv.Perm (Fin n)) (f g : Fin n → String)
    (hf : Function.Injective f) :
    coerceRow (List.ofFn (f ∘ σ)) (List.ofFn (g ∘ σ))
      = coerceRow (List.ofFn f) (List.ofFn g) := by
  unfold coerceRow
  rw [funext (pyLook_perm σ f g hf)]

/-- The row loop is invariant under a single column permutation applied to the
header and every data row, for distinct column names. -/
theorem parseRows_perm {n : Nat} (σ : Equiv.Perm (Fin n)) (f : Fin n → String)
    (hf : Function.Injective f) :
    ∀ rows : List (Fin n → String),
      parseRows (List.ofFn (f ∘ σ)) (rows.map fun g => List.ofFn (g ∘ σ))
        = parseRows (List.ofFn f) (rows.map fun g => List.ofFn g) := by
  intro rows
  induction rows with
  | nil => rfl
  | cons g gs ih =>
    simp only [List.map_cons]
    by_cases hg : (List.ofFn g : List String) = []
    · have hn : n = 0 := List.ofFn_eq_nil_iff.mp hg
      have hg2 : (List.ofFn (g ∘ σ) : List String) = [] :=
        List.ofFn_eq_nil_iff.mpr hn
      rw [parseRows, parseRows, if_pos hg2, if_pos hg]
      exact ih
    · have hg2 : (List.ofFn (g ∘ σ) : List String) ≠ [] := by
        intro hh
        exact hg (List.ofFn_eq_nil_iff.mpr (List.ofFn_eq_nil_iff.mp hh))
      rw [parseRows, parseRows, if_neg hg2, if_neg hg, coerceRow_perm σ f g hf]
      cases coerceRow (List.ofFn f) (List.ofFn g) with
      | record t => rw [ih]
      | stop => rfl
      | crash => rfl

/-- Claim C1: for every input stream, parse stops consuming rows at the first
post-header row whose trimmed `Run Date` field is empty or does not split on
`/` into exactly 3 parts, and returns the list of records collected before
that row; no error is raised and no later row (including disclaimer text)
contributes a record. -/
theorem claim_C1 (a b header bad : List String) (good rest : List (List String))
    (hgood : ∀ r ∈ good, r = [] ∨ isRecordOut (coerceRow header r) = true)
    (hbad : runDateBad header bad = true) :
    parse_trade_data (a :: b :: header :: (good ++ bad :: rest))
      = Except.ok (collectRecords header good) := by
  obtain ⟨hstop, hne⟩ := coerceRow_stop_of_runDateBad hbad
  show parseRows header (good ++ bad :: rest) = _
  exact parseRows_append_stop hgood hne hstop

/-- Witness for C1: a stream with one valid trade row followed by a
disclaimer line (no slash-delimited date) and further junk parses to exactly
the one trade record. -/
theorem claim_C1_witness :
    parse_trade_data (["Brokerage link example"] :: [] :: hdr9
        :: ([rowBought] ++ rowDisclaimer :: [["Date acquired"], ["junk"]]))
      = Except.ok (collectRecords hdr9 [rowBought])
    ∧ collectRecords hdr9 [rowBought] = [tradeBought] :=
  ⟨claim_C1 ["Brokerage link example"] [] hdr9 rowDisclaimer [rowBought]
      [["Date acquired"], ["junk"]] (by decide) (by decide),
   by decide⟩

/-- Claim C2, counterexample: the claim says any row-level exception during
coercion is swallowed, so parse never raises because of malformed row
content; but a non-blank post-header row shorter than the header (here a
lone valid `Run Date` cell) leaves the other columns as Python `None`, and
`None.upper()` / `None.strip()` raises an `AttributeError` that the
`except (ValueError, KeyError)` clause does not catch: parse raises. -/
theorem claim_C2_counterexample :
    parse_trade_data [["x"], ["y"], hdr9, rowShort]
      = Except.error PyErr.attributeError := by decide

/-- Claim C2, amended: if coercion of a post-header row fails with a caught
exception — `ValueError` (date parsing fails, malformed numeric) or
`KeyError` (required column missing from the header), the `stop` outcome —
parse terminates at that row and returns the records collected so far;
`ValueError`/`KeyError` are swallowed, but an `AttributeError` from a
non-blank row shorter than the header still escapes. -/
theorem claim_C2_amended (a b header bad : List String) (good rest : List (List String))
    (hgood : ∀ r ∈ good, r = [] ∨ isRecordOut (coerceRow header r) = true)
    (hbadne : bad ≠ []) (hstop : coerceRow header bad = ROut.stop) :
    parse_trade_data (a :: b :: header :: (good ++ bad :: rest))
      = Except.ok (collectRecords header good) := by
  show parseRows header (good ++ bad :: rest) = _
  exact parseRows_append_stop hgood hbadne hstop

/-- Witness for C2: a row with `Run Date` `13/40/2024` (three slash-separated
parts but an invalid date) terminates parsing at that row; the record of the
good row before it is returned. -/
theorem claim_C2_witness :
    parse_trade_data (["x"] :: ["y"] :: hdr9
        :: ([rowBlankQ] ++ rowBadDate :: [rowDisclaimer]))
      = Except.ok (collectRecords hdr9 [rowBlankQ])
    ∧ collectRecords hdr9 [rowBlankQ] = [tradeBlankQ] :=
  ⟨claim_C2_amended ["x"] ["y"] hdr9 rowBadDate [rowBlankQ] [rowDisclaimer]
      (by decide) (by decide) (by decide),
   by decide⟩

/-- Claim C3: action normalization is a case-insensitive substring match
tested in the fixed priority order BOUGHT, SOLD, CONVERSION, returning
`Bought`/`Sold`/`Conversion` for the first match, and the upper-cased raw
input when no keyword matches; `YOU BOUGHT SHARES` maps to `Bought`,
`DIVIDEND RECEIVED` to the upper-cased passthrough, and an input containing
several keywords resolves to the first in the priority order. -/
theorem claim_C3 (s : String) :
    (pyIn "BOUGHT" (pyUpper s) = true → get_trade_action s = "Bought") ∧
    (pyIn "BOUGHT" (pyUpper s) = false → pyIn "SOLD" (pyUpper s) = true →
      get_trade_action s = "Sold") ∧
    (pyIn "BOUGHT" (pyUpper s) = false → pyIn "SOLD" (pyUpper s) = false →
      pyIn "CONVERSION" (pyUpper s) = true → get_trade_action s = "Conversion") ∧
    (pyIn "BOUGHT" (pyUpper s) = false → pyIn "SOLD" (pyUpper s) = false →
      pyIn "CONVERSION" (pyUpper s) = false → get_trade_action s = (pyUpper s)) ∧
    get_trade_action "YOU BOUGHT SHARES" = "Bought" ∧
    get_trade_action "YOU SOLD SHARES" = "Sold" ∧
    get_trade_action "CASH CONVERSION" = "Conversion" ∧
    get_trade_action "DIVIDEND RECEIVED" = "DIVIDEND RECEIVED" ∧
    get_trade_action "you sold then bought" = "Bought" := by
  refine ⟨?_, ?_, ?_, ?_, by decide, by decide, by decide, by decide, by decide⟩
  · intro h1
    simp [get_trade_action, h1]
  · intro h1 h2
    simp [get_trade_action, h1, h2]
  · intro h1 h2 h3
    simp [get_trade_action, h1, h2, h3]
  · intro h1 h2 h3
    simp [get_trade_action, h1, h2, h3]

/-- Witness for C3: the first clause applied at `YOU BOUGHT SHARES`. -/
theorem claim_C3_witness : get_trade_action "YOU BOUGHT SHARES" = "Bought" :=
  (claim_C3 "YOU BOUGHT SHARES").1 (by decide)

/-- Claim C4, counterexample: the claim says each of quantity, price, amount
is the 64-bit float parse of its cell when the cell is non-blank; but the
code stores `abs(float(cell))` for quantity (and amount): on the cell `-5`
the parsed quantity is `5`, not the float parse `-5`. -/
theorem claim_C4_counterexample :
    parse_trade_data [["x"], ["y"], hdr9, rowNegQ] = Except.ok [tradeNegQ] ∧
    pyLook hdr9 rowNegQ "Quantity" = some (some "-5") ∧
    pyFloat "-5" = some (-5) ∧
    tradeNegQ.quantity = some 5 ∧
    tradeNegQ.quantity ≠ pyFloat "-5" := by decide

/-- Claim C4, amended: for every successfully parsed row, each optional
numeric field (quantity, price, amount) is `none` when its source cell is
blank or whitespace-only, and is otherwise derived from the float parse of
the cell — the absolute value of it for quantity and amount, the parse
itself for price; a blank cell never yields `0.0` (it yields `none`) and
never causes an error on that row. -/
theorem claim_C4_amended (header row : List String) (t : Trade) (qc pc ac : String)
    (hrec : coerceRow header row = ROut.record t)
    (hq : pyLook header row "Quantity" = some (some qc))
    (hp : pyLook header row "Price ($)" = some (some pc))
    (ha : pyLook header row "Amount ($)" = some (some ac)) :
    (pyStrip qc = "" → t.quantity = none) ∧
    (pyStrip pc = "" → t.price = none) ∧
    (pyStrip ac = "" → t.amount = none) ∧
    (pyStrip qc ≠ "" → ∃ x, pyFloat qc = some x ∧ t.quantity = some |x|) ∧
    (pyStrip pc ≠ "" → ∃ x, pyFloat pc = some x ∧ t.price = some x) ∧
    (pyStrip ac ≠ "" → ∃ x, pyFloat ac = some x ∧ t.amount = some |x|) := by
  obtain ⟨rd, d, act, sym, desc, ty, qc', pc', ac', sc,
    h1, h2, h3, h4, h5, h6, hq', hqv, hp', hpv, ha', hav,
    h13, h14, h15, h16, h17, h18, h19, h20, h21⟩ :=
      coerceExc_ok_inv (coerceRow_record hrec)
  obtain rfl : qc' = qc := by simpa using hq'.symm.trans hq
  obtain rfl : pc' = pc := by simpa using hp'.symm.trans hp
  obtain rfl : ac' = ac := by simpa using ha'.symm.trans ha
  exact ⟨(coerceNumAbs_ok hqv).1, (coerceNumSigned_ok hpv).1,
    (coerceNumAbs_ok hav).1, (coerceNumAbs_ok hqv).2,
    (coerceNumSigned_ok hpv).2, (coerceNumAbs_ok hav).2⟩

/-- Witness for C4: in the record of `rowBlankQ`, the blank quantity cell
gives `none` and the non-blank price cell gives its float parse. -/
theorem claim_C4_witness :
    tradeBlankQ.quantity = none ∧
    (∃ x, pyFloat "-3" = some x ∧ tradeBlankQ.price = some x) :=
  ⟨(claim_C4_amended hdr9 rowBlankQ tradeBlankQ "" "-3" "10"
      (by decide) (by decide) (by decide) (by decide)).1 (by decide),
   (claim_C4_amended hdr9 rowBlankQ tradeBlankQ "" "-3" "10"
      (by decide) (by decide) (by decide) (by decide)).2.2.2.2.1 (by decide)⟩

/-- Claim C5: for every input stream with at least 2 lines, parse discards
exactly the first 2 lines unconditionally — the result does not depend on
their content — and interprets the next line as the header row driving the
rest of the parse. -/
theorem claim_C5 (a b a2 b2 : List String) (rest : List (List String)) :
    parse_trade_data (a :: b :: rest) = parse_trade_data (a2 :: b2 :: rest) ∧
    (∀ header rows, parse_trade_data (a :: b :: header :: rows) = parseRows header rows) :=
  ⟨rfl, fun _ _ => rfl⟩

/-- Claim C6: in this variant the parser takes the absolute value of the
`Quantity` and `Amount ($)` cells — for every parsed record, a present
quantity (resp. amount) equals the absolute value of the float parsed from
its source cell and is therefore never negative — while price is stored with
its sign preserved. -/
theorem claim_C6 (header row : List String) (t : Trade) (qc pc ac : String)
    (hrec : coerceRow header row = ROut.record t)
    (hq : pyLook header row "Quantity" = some (some qc))
    (hp : pyLook header row "Price ($)" = some (some pc))
    (ha : pyLook header row "Amount ($)" = some (some ac)) :
    (∀ q, t.quantity = some q → 0 ≤ q ∧ ∃ x, pyFloat qc = some x ∧ q = |x|) ∧
    (∀ a2, t.amount = some a2 → 0 ≤ a2 ∧ ∃ x, pyFloat ac = some x ∧ a2 = |x|) ∧
    (∀ p, t.price = some p → pyFloat pc = some p) := by
  obtain ⟨rd, d, act, sym, desc, ty, qc', pc', ac', sc,
    h1, h2, h3, h4, h5, h6, hq', hqv, hp', hpv, ha', hav,
    h13, h14, h15, h16, h17, h18, h19, h20, h21⟩ :=
      coerceExc_ok_inv (coerceRow_record hrec)
  have hqq : qc' = qc := by simpa using hq'.symm.trans hq
  have hpp : pc' = pc := by simpa using hp'.symm.trans hp
  have haa : ac' = ac := by simpa using ha'.symm.trans ha
  rw [hqq] at hqv
  rw [hpp] at hpv
  rw [haa] at hav
  refine ⟨?_, ?_, ?_⟩
  · intro q hqt
    by_cases hb : pyStrip qc = ""
    · rw [(coerceNumAbs_ok hqv).1 hb] at hqt; cases hqt
    · obtain ⟨x, hx, hv⟩ := (coerceNumAbs_ok hqv).2 hb
      rw [hv] at hqt
      obtain rfl : q = |x| := (Option.some.inj hqt).symm
      exact ⟨abs_nonneg x, x, hx, rfl⟩
  · intro a2 hat
    by_cases hb : pyStrip ac = ""
    · rw [(coerceNumAbs_ok hav).1 hb] at hat; cases hat
    · obtain ⟨x, hx, hv⟩ := (coerceNumAbs_ok hav).2 hb
      rw [hv] at hat
      obtain rfl : a2 = |x| := (Option.some.inj hat).symm
      exact ⟨abs_nonneg x, x, hx, rfl⟩
  · intro p hpt
    by_cases hb : pyStrip pc = ""
    · rw [(coerceNumSigned_ok hpv).1 hb] at hpt; cases hpt
    · obtain ⟨x, hx, hv⟩ := (coerceNumSigned_ok hpv).2 hb
      rw [hv] at hpt
      obtain rfl : p = x := (Option.some.inj hpt).symm
      exact hx

/-- Witness for C6: the record of `rowNegQ` (quantity cell `-5`, price cell
`-3`): the stored quantity `5` is the absolute value of the parse and
non-negative, while the stored price is the signed parse `-3`. -/
theorem claim_C6_witness :
    ((0 : ℚ) ≤ 5 ∧ ∃ x, pyFloat "-5" = some x ∧ (5 : ℚ) = |x|) ∧
    pyFloat "-3" = some (-3) :=
  ⟨(claim_C6 hdr9 rowNegQ tradeNegQ "-5" "-3" "10"
      (by decide) (by decide) (by decide) (by decide)).1 5 (by decide),
   (claim_C6 hdr9 rowNegQ tradeNegQ "-5" "-3" "10"
      (by decide) (by decide) (by decide) (by decide)).2.2 (-3) (by decide)⟩

/-- Claim C7, counterexample: the claim says the writer returns the count of
records written, but `write_trades_to_csv` is annotated `-> None` and returns
nothing: on a one-record list its return value is `None`, not the count 1. -/
theorem claim_C7_counterexample :
    (write_trades_to_csv [tradeBought] "out.csv").returned = none ∧
    (write_trades_to_csv [tradeBought] "out.csv").returned ≠ some 1 := by decide

/-- Claim C7, amended: the writer returns no value (Python `None`); the count
of records written is reported only in the printed message
`Successfully wrote N trades to FILE`, and the file receives the header row
plus exactly one row per record. -/
theorem claim_C7_amended (trades : List Trade) (out : String) :
    (write_trades_to_csv trades out).returned = none ∧
    (trades ≠ [] →
      (write_trades_to_csv trades out).message =
        "Successfully wrote " ++ toString trades.length ++ " trades to " ++ out ∧
      (write_trades_to_csv trades out).written =
        some ((fieldnamesList.map OutCell.text) :: trades.map trade_to_row) ∧
      (trades.map trade_to_row).length = trades.length) := by
  by_cases h : trades = []
  · subst h
    exact ⟨rfl, fun hne => absurd rfl hne⟩
  · unfold write_trades_to_csv
    rw [if_neg h]
    exact ⟨rfl, fun _ => ⟨rfl, rfl, by rw [List.length_map]⟩⟩

/-- Witness for C7 (amended): on a one-record list the writer returns `None`
and prints the count in its message. -/
theorem claim_C7_witness :
    (write_trades_to_csv [tradeBought] "o.csv").returned = none ∧
    (write_trades_to_csv [tradeBought] "o.csv").message
      = "Successfully wrote 1 trades to o.csv" :=
  ⟨(claim_C7_amended [tradeBought] "o.csv").1,
   ((claim_C7_amended [tradeBought] "o.csv").2 (by decide)).1.trans (by decide)⟩

/-- Claim C8: on the empty record list, `get_trade_summary` returns a summary
with every count equal to 0 (the model is total, so no exception is
possible), and the writer performs no write (`written = none`), printing only
the "no records" notice — not an error condition. -/
theorem claim_C8 (out : String) :
    get_trade_summary [] = ⟨0, 0, 0, 0⟩ ∧
    (write_trades_to_csv [] out).written = none ∧
    (write_trades_to_csv [] out).message = "No trades to write to CSV file." :=
  ⟨rfl, rfl, rfl⟩

/-- Claim C9, counterexample: with a duplicated column name the claim fails.
`hdrDup` has `Quantity` at two positions holding cells `1` and `2`; swapping
those two columns maps the header to itself (the permuted stream is the
original stream with its cells permuted by the same column permutation), yet
the parses differ, because the dict built from the header keeps the last
occurrence of a duplicated name. -/
theorem claim_C9_counterexample :
    List.ofFn (fDup ∘ permDup) = List.ofFn fDup ∧
    parse_trade_data (["x"] :: ["y"] :: List.ofFn fDup :: [List.ofFn gDup])
      ≠ parse_trade_data (["x"] :: ["y"] :: List.ofFn (fDup ∘ permDup)
          :: [List.ofFn (gDup ∘ permDup)]) := by decide

/-- Claim C9, amended: for every pair of input streams that are identical
except that the header row's columns and, correspondingly, every data row's
cells are permuted by the same column permutation, parse returns the same
sequence of records, provided the header's column names are distinct (with a
duplicated name the surviving dict entry can change, see the
counterexample); the first two discarded lines may also differ. -/
theorem claim_C9_amended (n : Nat) (σ : Equiv.Perm (Fin n)) (f : Fin n → String)
    (hf : Function.Injective f) (rows : List (Fin n → String))
    (a b a2 b2 : List String) :
    parse_trade_data (a :: b :: List.ofFn f :: (rows.map fun g => List.ofFn g))
      = parse_trade_data (a2 :: b2 :: List.ofFn (f ∘ σ)
          :: (rows.map fun g => List.ofFn (g ∘ σ))) := by
  show parseRows (List.ofFn f) (rows.map fun g => List.ofFn g)
    = parseRows (List.ofFn (f ∘ σ)) (rows.map fun g => List.ofFn (g ∘ σ))
  exact (parseRows_perm σ f hf rows).symm

/-- Witness for C9 (amended): the sample header and trade row, with the
Symbol and Quantity columns swapped, parse identically. -/
theorem claim_C9_witness :
    parse_trade_data (["h1"] :: [] :: List.ofFn fW :: ([gW].map fun g => List.ofFn g))
      = parse_trade_data (["h2"] :: ["z"] :: List.ofFn (fW ∘ permW)
          :: ([gW].map fun g => List.ofFn (g ∘ permW))) :=
  claim_C9_amended 9 permW fW (by decide) [gW] ["h1"] [] ["h2"] ["z"]

/-- Claim C10: for every input stream containing fewer than 2 lines, parse
raises (the `StopIteration` from the unconditional `next(file)` skip escapes)
instead of returning a record list; the no-raise guarantee covers only
malformed row content after the header. -/
theorem claim_C10 (lines : List (List String)) (h : lines.length < 2) :
    parse_trade_data lines = Except.error PyErr.stopIteration := by
  rcases lines with _ | ⟨a, _ | ⟨b, r⟩⟩
  · rfl
  · rfl
  · exact absurd h (by simp only [List.length_cons]; omega)

/-- Witness for C10: the empty stream raises `StopIteration`. -/
theorem claim_C10_witness :
    parse_trade_data [] = Except.error PyErr.stopIteration :=
  claim_C10 [] (by decide)

end FidelityApp
